import Mathlib

/-!
Shallow embedding of the flow accounting engine of `flowtop`
(`flowtop/flow.py`), together with theorems checking the natural-language
specification against it.

Modelling conventions:
- Timestamps are whole seconds (`Nat`); every call to `time.time()` in the
  source becomes an explicit `now : Nat` argument, and the `int(...)`
  truncations in the source are the identity on this representation.
- `socket.gethostbyaddr` (reverse DNS) becomes an explicit resolver oracle
  `dns : IPv4 → Option String`; the source's `except socket.herror` branch
  that yields `None` is the `none` value of the oracle.
- A scapy packet is modelled by the fields the engine reads from it:
  layer-presence flags, addresses, ports, the IP protocol number, the total
  length (`len(packet)`) and the capture timestamp (`packet.time`).
- The Python dict `FlowTracker.__flow_table` is an insertion-ordered
  association list `List (Nat × Flow)`; `tableGet`/`tableSet` implement
  dict lookup and dict assignment (assignment keeps the position of an
  existing key and appends a fresh key, as CPython dicts do).
- A second model (`TrackerH`) makes Python object identity explicit with an
  address-indexed store, to settle the aliasing behaviour of the snapshot
  properties `flows` and `active_flows`.
-/

namespace Flowtop

/-- An IPv4 address as four octets, the form `socket.inet_aton` parses from a
dotted-quad string such as `"10.0.0.1"`. -/
structure IPv4 where
  o1 : Nat
  o2 : Nat
  o3 : Nat
  o4 : Nat
deriving DecidableEq

/-- Embeds `FlowTracker.ip2int`: `struct.unpack("!L", socket.inet_aton(ip))[0]`, the
big-endian 32-bit integer value of the dotted quad. -/
def ip2int (ip : IPv4) : Nat :=
  ((ip.o1 * 256 + ip.o2) * 256 + ip.o3) * 256 + ip.o4

/-- The fields of a decoded scapy packet that `flow.py` reads: presence of the
IP / TCP / UDP / SCTP layers, `packet[IP].src`, `packet[IP].dst`,
`packet[l4].sport`, `packet[l4].dport`, `packet[IP].proto`, `len(packet)` and
`packet.time`. -/
structure Packet where
  hasIP : Bool
  hasTCP : Bool
  hasUDP : Bool
  hasSCTP : Bool
  ipSrc : IPv4
  ipDst : IPv4
  sport : Nat
  dport : Nat
  proto : Nat
  pktLen : Nat
  time : Nat
deriving DecidableEq

/-- The `Flow` record of `flow.py`: the five-tuple identity, the stored
reverse-DNS results `__l3_src`/`__l3_dst` (`Option` because resolution may
fail), `__first_packet_ts` (`None` until the first accounted packet),
`__last_activity`, the two counters and the `__expired` flag. -/
structure Flow where
  src_ip : IPv4
  dst_ip : IPv4
  l3_src : Option String
  l3_dst : Option String
  src_port : Nat
  dst_port : Nat
  ip_proto : Nat
  first_packet_ts : Option Nat
  last_activity : Nat
  packets_n : Nat
  bytes_n : Nat
  expired : Bool
deriving DecidableEq

/-- Dotted-quad rendering of an address, the raw string the Python object
stores in `self.__src_ip`. -/
def ipStr (ip : IPv4) : String :=
  toString ip.o1 ++ "." ++ toString ip.o2 ++ "." ++ toString ip.o3 ++ "." ++ toString ip.o4

/-- Embeds `Flow.__init__`: stores the five-tuple, resolves both endpoints through
the best-effort resolver (`Flow.__resolve_ip_address`, which returns `None` on
`socket.herror`), sets `__first_packet_ts = None`, `__last_activity` to the
current time, both counters to `0` and `__expired` to `False`. -/
def mkFlow (dns : IPv4 → Option String) (now : Nat) (src dst : IPv4)
    (sp dp pr : Nat) : Flow :=
  { src_ip := src
    dst_ip := dst
    l3_src := dns src
    l3_dst := dns dst
    src_port := sp
    dst_port := dp
    ip_proto := pr
    first_packet_ts := none
    last_activity := now
    packets_n := 0
    bytes_n := 0
    expired := false }

/-- The `l3_src` property: the resolved hostname, falling back to the raw
address string when resolution yielded nothing (`self.__l3_src or
self.__src_ip`). -/
def Flow.l3_src_label (f : Flow) : String :=
  f.l3_src.getD (ipStr f.src_ip)

/-- The `l3_dst` property, symmetric to `l3_src`. -/
def Flow.l3_dst_label (f : Flow) : String :=
  f.l3_dst.getD (ipStr f.dst_ip)

/-- Embeds `Flow.account_packet`: records the capture timestamp of the first packet,
refreshes `__last_activity` to the current wall-clock time, increments
`__packets_n` by one and `__bytes_n` by `len(packet)`. -/
def Flow.account_packet (f : Flow) (p : Packet) (now : Nat) : Flow :=
  { f with
    first_packet_ts := match f.first_packet_ts with
      | none => some p.time
      | some t => some t
    last_activity := now
    packets_n := f.packets_n + 1
    bytes_n := f.bytes_n + p.pktLen }

/-- Embeds `Flow.expire`: sets `__expired = True`. -/
def Flow.expire (f : Flow) : Flow :=
  { f with expired := true }

/-- Dict lookup `table[k]` on the insertion-ordered association list. -/
def tableGet {α : Type} : List (Nat × α) → Nat → Option α
  | [], _ => none
  | kv :: rest, k => if kv.1 = k then some kv.2 else tableGet rest k

/-- Dict assignment `table[k] = v`: replaces the value at an existing key in
place, appends a fresh key at the end (CPython dict semantics). -/
def tableSet {α : Type} : List (Nat × α) → Nat → α → List (Nat × α)
  | [], k, v => [(k, v)]
  | kv :: rest, k, v =>
    if kv.1 = k then (k, v) :: rest else kv :: tableSet rest k v

/-- Embeds `FlowTracker.FLOW_TIMEOUT`. -/
def FLOW_TIMEOUT : Nat := 30

/-- Embeds `FlowTracker.NO_EXPIRATION`. -/
def NO_EXPIRATION : Nat := 0

/-- The state a `FlowTracker` carries for the accounting engine: the flow
table and the `__start_ts` origin of the statistics timeframe. -/
structure FlowTracker where
  flow_table : List (Nat × Flow)
  start_ts : Nat
deriving DecidableEq

/-- Embeds `FlowTracker.calc_five_tuple_hash`: `(ip2int(src)*59) XOR
(ip2int(dst)*59) XOR (sport*13) XOR (dport*13) XOR proto`. -/
def calc_five_tuple_hash (t : IPv4 × IPv4 × Nat × Nat × Nat) : Nat :=
  ((ip2int t.1 * 59) ^^^ (ip2int t.2.1 * 59)) ^^^ (t.2.2.1 * 13) ^^^ (t.2.2.2.1 * 13) ^^^ t.2.2.2.2

/-- The five-tuple `FlowTracker.account_packet` extracts from an accepted
packet. -/
def pktFiveTuple (p : Packet) : IPv4 × IPv4 × Nat × Nat × Nat :=
  (p.ipSrc, p.ipDst, p.sport, p.dport, p.proto)

/-- The table key of a packet: the five-tuple hash. -/
def pktHash (p : Packet) : Nat :=
  calc_five_tuple_hash (pktFiveTuple p)

/-- The classification test of `FlowTracker.account_packet`: the packet must
carry an IP layer and one of TCP or UDP (any other packet makes the method
return early). -/
def accepts (p : Packet) : Bool :=
  p.hasIP && (p.hasTCP || p.hasUDP)

/-- Embeds `FlowTracker.account_packet`: classify the packet, compute the five-tuple
hash, look the hash up in the flow table, create a fresh `Flow` when the key
is new, then account the packet into that flow. -/
def FlowTracker.account_packet (s : FlowTracker) (dns : IPv4 → Option String)
    (now : Nat) (p : Packet) : FlowTracker :=
  if p.hasIP then
    if p.hasTCP || p.hasUDP then
      match tableGet s.flow_table (pktHash p) with
      | some flow =>
          { s with flow_table := tableSet s.flow_table (pktHash p) (flow.account_packet p now) }
      | none =>
          { s with
            flow_table :=
              tableSet s.flow_table (pktHash p)
                ((mkFlow dns now p.ipSrc p.ipDst p.sport p.dport p.proto).account_packet p now) }
    else s
  else s

/-- Embeds the loop body of `FlowTracker.expire_flows` on one flow: when the
idle time `int(now) - int(last_activity)` strictly exceeds the timeout the
flow has `expire()` called on it, otherwise it is left alone. -/
def sweepFlow (timeout now : Nat) (f : Flow) : Flow :=
  if ((now : Int) - (f.last_activity : Int)) > (timeout : Int) then f.expire else f

/-- Embeds `FlowTracker.expire_flows`: the early return on `NO_EXPIRATION`,
otherwise the sweep over every table entry (keys untouched). -/
def FlowTracker.expire_flows (s : FlowTracker) (timeout now : Nat) : FlowTracker :=
  if timeout = NO_EXPIRATION then s
  else
    { s with
      flow_table := s.flow_table.map fun kf => (kf.1, sweepFlow timeout now kf.2) }

/-- Embeds `FlowTracker.clear`: discards every flow and resets the timeframe origin
to the current time. -/
def FlowTracker.clear (now : Nat) : FlowTracker :=
  { flow_table := [], start_ts := now }

/-- The `flows` property: the flow table itself, expired entries included. -/
def FlowTracker.flows (s : FlowTracker) : List (Nat × Flow) :=
  s.flow_table

/-- The `active_flows` property: the comprehension keeping exactly the
entries whose flow is not expired. -/
def FlowTracker.active_flows (s : FlowTracker) : List (Nat × Flow) :=
  s.flow_table.filter fun kf => !kf.2.expired

/-- The `flows_n` property: `len(list(self.__flow_table))`. -/
def FlowTracker.flows_n (s : FlowTracker) : Nat :=
  s.flow_table.length

/-- The `packets_n` property: `sum([flow.packets_n for flow in values])`. -/
def FlowTracker.packets_n (s : FlowTracker) : Nat :=
  (s.flow_table.map fun kf => kf.2.packets_n).sum

/-- The `bytes_n` property: `sum([flow.bytes_n for flow in values])`. -/
def FlowTracker.bytes_n (s : FlowTracker) : Nat :=
  (s.flow_table.map fun kf => kf.2.bytes_n).sum

/-- The `timeframe` property: `int(time.time()) - int(self.__start_ts)`. -/
def FlowTracker.timeframe (s : FlowTracker) (now : Nat) : Int :=
  (now : Int) - (s.start_ts : Int)

/-- The `avg_packets_per_s` property: `packets_n / timeframe`, where the
`except ZeroDivisionError: return 0` handler coincides with the `x / 0 = 0`
convention of rational division. -/
def FlowTracker.avg_packets_per_s (s : FlowTracker) (now : Nat) : ℚ :=
  (s.packets_n : ℚ) / (s.timeframe now : ℚ)

/-- The `avg_bytes_per_s` property, with the same zero guard. -/
def FlowTracker.avg_bytes_per_s (s : FlowTracker) (now : Nat) : ℚ :=
  (s.bytes_n : ℚ) / (s.timeframe now : ℚ)

/-- The `avg_flows_per_s` property, with the same zero guard. -/
def FlowTracker.avg_flows_per_s (s : FlowTracker) (now : Nat) : ℚ :=
  (s.flows_n : ℚ) / (s.timeframe now : ℚ)

/-- The `stats` property: the six-component tuple of totals and rates. -/
def FlowTracker.stats (s : FlowTracker) (now : Nat) :
    Nat × ℚ × Nat × ℚ × Nat × ℚ :=
  (s.packets_n, s.avg_packets_per_s now, s.bytes_n, s.avg_bytes_per_s now,
   s.flows_n, s.avg_flows_per_s now)

/-- The mutation entry points that run between two table clears: packet
ingestion on the capture thread and the expiration sweep on the control
thread (clearing itself is excluded on purpose: the claim under check is
about what happens between two clears). -/
inductive Op where
  | ingest (dns : IPv4 → Option String) (now : Nat) (p : Packet)
  | sweep (timeout now : Nat)

/-- Run one mutation entry point on the tracker state. -/
def applyOp (o : Op) (s : FlowTracker) : FlowTracker :=
  match o with
  | Op.ingest dns now p => s.account_packet dns now p
  | Op.sweep timeout now => s.expire_flows timeout now

/-- Run a sequence of mutation entry points, oldest first. -/
def applyOps (ops : List Op) (s : FlowTracker) : FlowTracker :=
  match ops with
  | [] => s
  | o :: rest => applyOps rest (applyOp o s)

/-!
The heap model. The pure `FlowTracker` model above uses value semantics and
cannot see Python object identity, so it cannot distinguish `flows` (which
returns the live `__flow_table` dict object) from a defensive copy. The
claims about snapshot isolation are exactly about that distinction, so
`TrackerH` re-expresses the same source code with an explicit store of `Flow`
objects addressed by allocation index: the dict maps each hash to the address
of its `Flow` object, mutating a flow mutates the store in place, and
creating a flow allocates at the end of the store.
-/

/-- Replace the object at address `a` of the store by its image under `g`
(in-place mutation of one Python object). -/
def storeUpdate : List Flow → Nat → (Flow → Flow) → List Flow
  | [], _, _ => []
  | f :: rest, 0, g => g f :: rest
  | f :: rest, Nat.succ a, g => f :: storeUpdate rest a g

/-- State of a `FlowTracker` with object identity explicit: `flowStore` is the
heap of `Flow` objects (addressed by index) and `table` is the
`__flow_table` dict, mapping each five-tuple hash to the address of its
flow. -/
structure TrackerH where
  flowStore : List Flow
  table : List (Nat × Nat)
  start_ts : Nat
deriving DecidableEq

/-- Embeds `FlowTracker.account_packet` on the heap model: an accepted packet either
mutates the stored `Flow` object its hash points to, or allocates a fresh
flow at the end of the store and binds the hash to its address. -/
def TrackerH.ingest (s : TrackerH) (dns : IPv4 → Option String) (now : Nat)
    (p : Packet) : TrackerH :=
  if accepts p then
    match tableGet s.table (pktHash p) with
    | some a =>
        { s with flowStore := storeUpdate s.flowStore a fun f => f.account_packet p now }
    | none =>
        { s with
          flowStore := s.flowStore ++
            [(mkFlow dns now p.ipSrc p.ipDst p.sport p.dport p.proto).account_packet p now]
          table := s.table ++ [(pktHash p, s.flowStore.length)] }
  else s

/-- What a snapshot handed to the presentation layer is, in terms of object
identity: `flows` returns the live dict object itself, while `active_flows`
builds a fresh dict holding the same `Flow` objects (their addresses). -/
inductive Snap where
  | live : Snap
  | frozen (entries : List (Nat × Nat)) : Snap
deriving DecidableEq

/-- The `flows` property on the heap model: the live table reference. -/
def TrackerH.flows (_ : TrackerH) : Snap :=
  Snap.live

/-- The `active_flows` property on the heap model: a fresh dict of the
entries whose flow object is not expired, sharing the flow addresses. -/
def TrackerH.active_flows (s : TrackerH) : Snap :=
  Snap.frozen (s.table.filter fun ka =>
    match s.flowStore.get? ka.2 with
    | some f => !f.expired
    | none => false)

/-- What a consumer holding snapshot `sn` observes when it iterates the
snapshot while the tracker is in state `s`: each hash together with the flow
object its address dereferences to at that moment. -/
def readSnap (s : TrackerH) : Snap → List (Nat × Option Flow)
  | Snap.live => s.table.map fun ka => (ka.1, s.flowStore.get? ka.2)
  | Snap.frozen l => l.map fun ka => (ka.1, s.flowStore.get? ka.2)

/-! Concrete fixtures used by counterexamples and witnesses. -/

/-- Resolver oracle on which every reverse lookup fails (`socket.herror`). -/
def dns0 : IPv4 → Option String := fun _ => none

/-- The address `"10.0.0.1"` of the scenario in the specification. -/
def ipA : IPv4 := ⟨10, 0, 0, 1⟩

/-- The address `"10.0.0.2"` of the scenario in the specification. -/
def ipB : IPv4 := ⟨10, 0, 0, 2⟩

/-- A TCP packet of the tuple `("10.0.0.1","10.0.0.2",1234,80,6)`, 40 bytes
long. -/
def pktAB : Packet :=
  { hasIP := true, hasTCP := true, hasUDP := false, hasSCTP := false
    ipSrc := ipA, ipDst := ipB, sport := 1234, dport := 80, proto := 6
    pktLen := 40, time := 1 }

/-- The reverse direction of `pktAB`: the tuple
`("10.0.0.2","10.0.0.1",80,1234,6)`, 60 bytes long. -/
def pktBA : Packet :=
  { hasIP := true, hasTCP := true, hasUDP := false, hasSCTP := false
    ipSrc := ipB, ipDst := ipA, sport := 80, dport := 1234, proto := 6
    pktLen := 60, time := 2 }

/-- A packet carrying IP and SCTP but neither TCP nor UDP (protocol number
132). -/
def pktSCTP : Packet :=
  { hasIP := true, hasTCP := false, hasUDP := false, hasSCTP := true
    ipSrc := ipA, ipDst := ipB, sport := 7, dport := 8, proto := 132
    pktLen := 100, time := 3 }

/-- A second packet of the `("10.0.0.1","10.0.0.2",1234,80,6)` tuple,
60 bytes long. -/
def pkt60 : Packet :=
  { pktAB with pktLen := 60, time := 2 }

/-- A third packet of the `("10.0.0.1","10.0.0.2",1234,80,6)` tuple,
1500 bytes long. -/
def pkt1500 : Packet :=
  { pktAB with pktLen := 1500, time := 3 }

/-! Helper lemmas about the dict operations. -/

theorem tableGet_tableSet_self {α : Type} (t : List (Nat × α)) (k : Nat) (v : α) :
    tableGet (tableSet t k v) k = some v := by
  induction t with
  | nil => simp [tableSet, tableGet]
  | cons kv rest ih =>
    by_cases h : kv.1 = k
    · simp [tableSet, tableGet, h]
    · simp [tableSet, tableGet, h, ih]

theorem tableGet_tableSet_ne {α : Type} (t : List (Nat × α)) (k k' : Nat) (v : α)
    (hne : k' ≠ k) : tableGet (tableSet t k v) k' = tableGet t k' := by
  induction t with
  | nil =>
    simp [tableSet, tableGet]
    intro h
    exact absurd h.symm hne
  | cons kv rest ih =>
    by_cases h : kv.1 = k
    · subst h
      have : ¬ (kv.1 = k') := fun hk => hne (hk.symm)
      simp [tableSet, tableGet, this]
    · by_cases h2 : kv.1 = k'
      · simp [tableSet, tableGet, h, h2, hne]
      · simp [tableSet, tableGet, h, h2, ih]

theorem map_fst_tableSet_of_get {α : Type} (t : List (Nat × α)) (k : Nat) (v v₀ : α)
    (hmem : tableGet t k = some v₀) :
    (tableSet t k v).map Prod.fst = t.map Prod.fst := by
  induction t with
  | nil => simp [tableGet] at hmem
  | cons kv rest ih =>
    by_cases h : kv.1 = k
    · simp [tableSet, h]
    · simp [tableGet, h] at hmem
      simp [tableSet, h, ih hmem]

theorem map_fst_tableSet_of_none {α : Type} (t : List (Nat × α)) (k : Nat) (v : α)
    (hnone : tableGet t k = none) :
    (tableSet t k v).map Prod.fst = t.map Prod.fst ++ [k] := by
  induction t with
  | nil => simp [tableSet]
  | cons kv rest ih =>
    by_cases h : kv.1 = k
    · simp [tableGet, h] at hnone
    · simp [tableGet, h] at hnone
      simp [tableSet, h, ih hnone]

theorem tableGet_mem {α : Type} (t : List (Nat × α)) (k : Nat) (v : α)
    (h : tableGet t k = some v) : (k, v) ∈ t := by
  induction t with
  | nil => simp [tableGet] at h
  | cons kv rest ih =>
    by_cases hk : kv.1 = k
    · simp [tableGet, hk] at h
      have hkv : kv = (k, v) := by
        cases kv
        simp_all
      rw [hkv]
      exact List.mem_cons_self _ _
    · simp [tableGet, hk] at h
      exact List.mem_cons_of_mem _ (ih h)

theorem sum_map_tableSet (t : List (Nat × Flow)) (k : Nat) (f f₀ : Flow)
    (g : Flow → Nat) (hget : tableGet t k = some f₀) :
    ((tableSet t k f).map fun kf => g kf.2).sum + g f₀
      = (t.map fun kf => g kf.2).sum + g f := by
  induction t with
  | nil => simp [tableGet] at hget
  | cons kv rest ih =>
    by_cases h : kv.1 = k
    · simp [tableGet, h] at hget
      simp [tableSet, h, hget]
      ring
    · simp [tableGet, h] at hget
      simp [tableSet, h]
      have := ih hget
      omega

theorem tableGet_keyed_map {α β : Type} (t : List (Nat × α)) (g : α → β) (k : Nat) :
    tableGet (t.map fun kv => (kv.1, g kv.2)) k = (tableGet t k).map g := by
  induction t with
  | nil => simp [tableGet]
  | cons kv rest ih =>
    by_cases h : kv.1 = k
    · simp [tableGet, h]
    · simp [tableGet, h, ih]

/-! Shared facts about `FlowTracker.account_packet`. -/

theorem account_packet_of_accepts (s : FlowTracker) (dns : IPv4 → Option String)
    (now : Nat) (p : Packet) (h : accepts p = true) :
    (s.account_packet dns now p).flow_table =
      tableSet s.flow_table (pktHash p)
        ((match tableGet s.flow_table (pktHash p) with
          | some f => f
          | none => mkFlow dns now p.ipSrc p.ipDst p.sport p.dport p.proto).account_packet p now) := by
  have hsplit : p.hasIP = true ∧ (p.hasTCP || p.hasUDP) = true := by
    simpa [accepts] using h
  cases hget : tableGet s.flow_table (pktHash p) <;>
    simp [FlowTracker.account_packet, hsplit.1, hsplit.2, hget]

theorem account_packet_of_not_accepts (s : FlowTracker) (dns : IPv4 → Option String)
    (now : Nat) (p : Packet) (h : accepts p = false) :
    s.account_packet dns now p = s := by
  unfold FlowTracker.account_packet
  cases h1 : p.hasIP with
  | false => simp
  | true =>
    cases h2 : p.hasTCP || p.hasUDP with
    | false => simp
    | true =>
      exfalso
      unfold accepts at h
      rw [h1, h2] at h
      simp at h

theorem account_packet_start_ts (s : FlowTracker) (dns : IPv4 → Option String)
    (now : Nat) (p : Packet) :
    (s.account_packet dns now p).start_ts = s.start_ts := by
  unfold FlowTracker.account_packet
  cases h1 : p.hasIP <;> cases h2 : p.hasTCP || p.hasUDP <;>
    cases hget : tableGet s.flow_table (pktHash p) <;> simp [hget]

/-! Claim C1. -/

/-- C1 counterexample: for the distinct endpoints `10.0.0.1` and `10.0.0.2`
with swapped ports, the two directions hash to the same table key, and
ingesting one packet of each direction leaves a single `Flow` record in the
table, not two: the claim that the two directions are never merged is false
on this code. -/
theorem c1_merge_counterexample :
    ipA ≠ ipB ∧
    calc_five_tuple_hash (ipA, ipB, 1234, 80, 6)
      = calc_five_tuple_hash (ipB, ipA, 80, 1234, 6) ∧
    (((FlowTracker.clear 0).account_packet dns0 1 pktAB).account_packet dns0 2 pktBA).flow_table.length = 1 := by
  refine ⟨by decide, by decide, by decide⟩

/-- C1 (amended): the five-tuple hash is invariant under reversing the
direction, so for every pair of five-tuples `(A,B,p1,p2,proto)` and
`(B,A,p2,p1,proto)` the two directions share one table key: once packets of
both directions are ingested they are accounted in one single `Flow` record
(the second direction never adds a record). -/
theorem c1_directions_always_merge (A B : IPv4) (p1 p2 pr : Nat) :
    calc_five_tuple_hash (A, B, p1, p2, pr)
      = calc_five_tuple_hash (B, A, p2, p1, pr) ∧
    ∀ (dns : IPv4 → Option String) (n1 n2 : Nat) (s : FlowTracker) (pA pB : Packet),
      pktFiveTuple pA = (A, B, p1, p2, pr) →
      pktFiveTuple pB = (B, A, p2, p1, pr) →
      accepts pA = true → accepts pB = true →
      ((s.account_packet dns n1 pA).account_packet dns n2 pB).flow_table.length
        = (s.account_packet dns n1 pA).flow_table.length := by
  have hsym : calc_five_tuple_hash (A, B, p1, p2, pr)
      = calc_five_tuple_hash (B, A, p2, p1, pr) := by
    unfold calc_five_tuple_hash
    simp only []
    rw [Nat.xor_comm (ip2int A * 59) (ip2int B * 59)]
    rw [Nat.xor_assoc (ip2int B * 59 ^^^ ip2int A * 59) (p1 * 13) (p2 * 13)]
    rw [Nat.xor_comm (p1 * 13) (p2 * 13)]
    rw [← Nat.xor_assoc (ip2int B * 59 ^^^ ip2int A * 59) (p2 * 13) (p1 * 13)]
  refine ⟨hsym, ?_⟩
  intro dns n1 n2 s pA pB hA hB haccA haccB
  have hhash : pktHash pB = pktHash pA := by
    unfold pktHash
    rw [hA, hB, hsym]
  have hpresent : ∃ f, tableGet (s.account_packet dns n1 pA).flow_table (pktHash pB) = some f := by
    rw [hhash, account_packet_of_accepts s dns n1 pA haccA]
    exact ⟨_, tableGet_tableSet_self _ _ _⟩
  obtain ⟨f, hf⟩ := hpresent
  rw [account_packet_of_accepts _ dns n2 pB haccB]
  have hkeys := map_fst_tableSet_of_get
    (s.account_packet dns n1 pA).flow_table (pktHash pB)
    ((match tableGet (s.account_packet dns n1 pA).flow_table (pktHash pB) with
      | some f => f
      | none => mkFlow dns n2 pB.ipSrc pB.ipDst pB.sport pB.dport pB.proto).account_packet pB n2)
    f hf
  have := congrArg List.length hkeys
  simpa using this

/-- Witness for the amended C1 at the concrete tuple of the specification
scenario. -/
theorem c1_directions_always_merge_witness :
    (((FlowTracker.clear 0).account_packet dns0 1 pktAB).account_packet dns0 2 pktBA).flow_table.length
      = ((FlowTracker.clear 0).account_packet dns0 1 pktAB).flow_table.length := by
  exact (c1_directions_always_merge ipA ipB 1234 80 6).2 dns0 1 2
    (FlowTracker.clear 0) pktAB pktBA rfl rfl rfl rfl

/-! Claim C2. -/

/-- C2 counterexample: a packet carrying IP and SCTP (but neither TCP nor
UDP) satisfies the claim's acceptance condition, yet the tracker drops it:
no flow is created and the state is unchanged. -/
theorem c2_sctp_counterexample :
    (pktSCTP.hasIP && (pktSCTP.hasTCP || pktSCTP.hasUDP || pktSCTP.hasSCTP)) = true ∧
    (FlowTracker.clear 0).account_packet dns0 5 pktSCTP = FlowTracker.clear 0 ∧
    ((FlowTracker.clear 0).account_packet dns0 5 pktSCTP).flow_table = [] := by
  refine ⟨by decide, by decide, by decide⟩

/-- C2 (amended): `FlowTracker.account_packet` creates or updates a flow if
and only if the packet carries an IP layer and one of TCP or UDP as L4;
every other packet — SCTP included — is silently dropped: the state is
returned unchanged, so no flow is created and no existing flow is
modified. -/
theorem c2_classification (dns : IPv4 → Option String) (now : Nat)
    (p : Packet) (s : FlowTracker) :
    (accepts p = false → s.account_packet dns now p = s) ∧
    (accepts p = true →
      tableGet (s.account_packet dns now p).flow_table (pktHash p) =
        some ((match tableGet s.flow_table (pktHash p) with
               | some f => f
               | none => mkFlow dns now p.ipSrc p.ipDst p.sport p.dport p.proto).account_packet p now)) := by
  constructor
  · exact account_packet_of_not_accepts s dns now p
  · intro h
    rw [account_packet_of_accepts s dns now p h]
    exact tableGet_tableSet_self _ _ _

/-- Witness for the amended C2: the SCTP packet leaves the tracker unchanged,
and an accepted TCP packet creates its flow. -/
theorem c2_classification_witness :
    ((FlowTracker.clear 7).account_packet dns0 5 pktSCTP = FlowTracker.clear 7) ∧
    (tableGet ((FlowTracker.clear 7).account_packet dns0 9 pktAB).flow_table (pktHash pktAB)
      = some ((mkFlow dns0 9 ipA ipB 1234 80 6).account_packet pktAB 9)) := by
  constructor
  · exact (c2_classification dns0 5 pktSCTP (FlowTracker.clear 7)).1 rfl
  · exact (c2_classification dns0 9 pktAB (FlowTracker.clear 7)).2 rfl

/-! Claim C6. -/

/-- C6: with the timeout configured to zero (the `NO_EXPIRATION` value), the
expiration sweep returns the state unchanged, so no flow's `expired` flag
changes, whatever the input table. -/
theorem c6_zero_timeout_noop (s : FlowTracker) (now : Nat) :
    s.expire_flows 0 now = s ∧
    ∀ k, tableGet (s.expire_flows 0 now).flow_table k = tableGet s.flow_table k := by
  constructor
  · rfl
  · intro k
    rfl

/-! Claim C9. -/

/-- C9 counterexample: a freshly created flow has `first_packet_ts = None`
rather than the creation time — the first-seen timestamp is only recorded
when the first packet is accounted — so the claim that creation sets
`first_seen` to the current time is false on this code. -/
theorem c9_first_seen_counterexample :
    (mkFlow dns0 100 ipA ipB 1234 80 6).first_packet_ts ≠ some 100 ∧
    (mkFlow dns0 100 ipA ipB 1234 80 6).last_activity = 100 := by
  refine ⟨by decide, by decide⟩

/-- C9 (amended): creating a flow from a five-tuple sets `last_activity` to
the current time, leaves `first_packet_ts` unset until the first packet is
accounted (at which point it becomes that packet's capture timestamp), sets
both counters to zero and `expired` to false; reverse-DNS resolution of each
endpoint is best-effort through the resolver oracle, and when resolution
fails the flow is still created with no hostname and its display label falls
back to the raw address. -/
theorem c9_flow_creation (dns : IPv4 → Option String) (now : Nat)
    (src dst : IPv4) (sp dp pr : Nat) :
    (mkFlow dns now src dst sp dp pr).last_activity = now ∧
    (mkFlow dns now src dst sp dp pr).first_packet_ts = none ∧
    (mkFlow dns now src dst sp dp pr).packets_n = 0 ∧
    (mkFlow dns now src dst sp dp pr).bytes_n = 0 ∧
    (mkFlow dns now src dst sp dp pr).expired = false ∧
    (mkFlow dns now src dst sp dp pr).l3_src = dns src ∧
    (mkFlow dns now src dst sp dp pr).l3_dst = dns dst ∧
    (dns src = none → (mkFlow dns now src dst sp dp pr).l3_src_label = ipStr src) ∧
    (∀ (p : Packet) (n2 : Nat),
      ((mkFlow dns now src dst sp dp pr).account_packet p n2).first_packet_ts = some p.time) := by
  refine ⟨rfl, rfl, rfl, rfl, rfl, rfl, rfl, ?_, ?_⟩
  · intro h
    simp [mkFlow, Flow.l3_src_label, h]
  · intro p n2
    rfl

/-- Witness for the amended C9 with the failing resolver: the label falls
back to the dotted quad and the remaining fields are as stated. -/
theorem c9_flow_creation_witness :
    (mkFlow dns0 100 ipA ipB 1234 80 6).l3_src_label = ipStr ipA ∧
    (mkFlow dns0 100 ipA ipB 1234 80 6).last_activity = 100 ∧
    (mkFlow dns0 100 ipA ipB 1234 80 6).first_packet_ts = none ∧
    ((mkFlow dns0 100 ipA ipB 1234 80 6).account_packet pktAB 101).first_packet_ts = some pktAB.time := by
  have h := c9_flow_creation dns0 100 ipA ipB 1234 80 6
  exact ⟨h.2.2.2.2.2.2.2.1 rfl, h.1, h.2.1, h.2.2.2.2.2.2.2.2 pktAB 101⟩

/-! Claim C3. -/

/-- C3: every accepted packet increments the owning flow's `packets_n` by
exactly one and its `bytes_n` by exactly the packet length (the owner being
created with zero counters when its key is new), leaves every other table
entry untouched, and the specification scenario — three packets of lengths
40, 60 and 1500 on the tuple `("10.0.0.1","10.0.0.2",1234,80,6)` — yields
exactly one flow with `packets_n = 3` and `bytes_n = 1600`. -/
theorem c3_packet_accounting (dns : IPv4 → Option String) (now : Nat)
    (p : Packet) (s : FlowTracker) (h : accepts p = true) :
    (∃ f', tableGet (s.account_packet dns now p).flow_table (pktHash p) = some f' ∧
      f'.packets_n = (match tableGet s.flow_table (pktHash p) with
                      | some f => f.packets_n
                      | none => 0) + 1 ∧
      f'.bytes_n = (match tableGet s.flow_table (pktHash p) with
                    | some f => f.bytes_n
                    | none => 0) + p.pktLen) ∧
    (∀ k, k ≠ pktHash p →
      tableGet (s.account_packet dns now p).flow_table k = tableGet s.flow_table k) ∧
    ((((FlowTracker.clear 0).account_packet dns0 1 pktAB).account_packet dns0 2 pkt60).account_packet dns0 3 pkt1500).flow_table.map
        (fun kf => (kf.2.packets_n, kf.2.bytes_n)) = [(3, 1600)] := by
  refine ⟨?_, ?_, by decide⟩
  · rw [account_packet_of_accepts s dns now p h]
    refine ⟨_, tableGet_tableSet_self _ _ _, ?_, ?_⟩
    · cases hget : tableGet s.flow_table (pktHash p) with
      | none => simp [hget, Flow.account_packet, mkFlow]
      | some f => simp [hget, Flow.account_packet]
    · cases hget : tableGet s.flow_table (pktHash p) with
      | none => simp [hget, Flow.account_packet, mkFlow]
      | some f => simp [hget, Flow.account_packet]
  · intro k hk
    rw [account_packet_of_accepts s dns now p h, tableGet_tableSet_ne _ _ _ _ hk]

/-- Witness for C3 on a fresh table: the first packet of the scenario tuple
creates the owning flow with counters `1` and `40`, while an unrelated key
stays absent. -/
theorem c3_packet_accounting_witness :
    (∃ f', tableGet ((FlowTracker.clear 0).account_packet dns0 1 pktAB).flow_table (pktHash pktAB) = some f' ∧
      f'.packets_n = (match tableGet (FlowTracker.clear 0).flow_table (pktHash pktAB) with
                      | some f => f.packets_n
                      | none => 0) + 1 ∧
      f'.bytes_n = (match tableGet (FlowTracker.clear 0).flow_table (pktHash pktAB) with
                    | some f => f.bytes_n
                    | none => 0) + pktAB.pktLen) ∧
    tableGet ((FlowTracker.clear 0).account_packet dns0 1 pktAB).flow_table 3 = tableGet (FlowTracker.clear 0).flow_table 3 := by
  have h := c3_packet_accounting dns0 1 pktAB (FlowTracker.clear 0) rfl
  exact ⟨h.1, h.2.1 3 (by decide)⟩

/-! Claim C5. -/

/-- C5: with a positive timeout the sweep sends `expire()` to exactly the
flows whose idle time `now - last_activity` strictly exceeds the timeout —
each table entry becomes its expired version precisely under that condition
and is untouched otherwise — and afterwards every expired flow is absent
from the active-only view `active_flows` while still present in the
all-entries view `flows`. -/
theorem c5_expiration_sweep (s : FlowTracker) (timeout now : Nat)
    (hpos : 0 < timeout) :
    (∀ k f, tableGet s.flow_table k = some f →
      tableGet (s.expire_flows timeout now).flow_table k =
        some (if ((now : Int) - (f.last_activity : Int)) > (timeout : Int) then
                f.expire
              else f)) ∧
    (∀ k f, (k, f) ∈ (s.expire_flows timeout now).flow_table → f.expired = true →
      (k, f) ∉ (s.expire_flows timeout now).active_flows ∧
      (k, f) ∈ (s.expire_flows timeout now).flows) := by
  have htz : ¬ timeout = NO_EXPIRATION := by
    unfold NO_EXPIRATION
    omega
  constructor
  · intro k f hget
    unfold FlowTracker.expire_flows
    rw [if_neg htz]
    show tableGet (s.flow_table.map fun kf => (kf.1, sweepFlow timeout now kf.2)) k = _
    rw [tableGet_keyed_map, hget]
    rfl
  · intro k f hmem hexp
    constructor
    · intro hmem2
      have hfil := (List.mem_filter.mp hmem2).2
      rw [hexp] at hfil
      simp at hfil
    · exact hmem

/-- Witness for C5: a flow last active at time `0`, swept with timeout 30 at
time 31, comes out expired; it is excluded from `active_flows` and kept in
`flows`. -/
theorem c5_expiration_sweep_witness :
    tableGet ((FlowTracker.mk [(5, mkFlow dns0 0 ipA ipB 1234 80 6)] 0).expire_flows 30 31).flow_table 5
      = some (if ((31 : Nat) : Int) - (((mkFlow dns0 0 ipA ipB 1234 80 6).last_activity : Nat) : Int) > ((30 : Nat) : Int) then
                (mkFlow dns0 0 ipA ipB 1234 80 6).expire
              else mkFlow dns0 0 ipA ipB 1234 80 6) ∧
    (5, (mkFlow dns0 0 ipA ipB 1234 80 6).expire)
      ∉ ((FlowTracker.mk [(5, mkFlow dns0 0 ipA ipB 1234 80 6)] 0).expire_flows 30 31).active_flows ∧
    (5, (mkFlow dns0 0 ipA ipB 1234 80 6).expire)
      ∈ ((FlowTracker.mk [(5, mkFlow dns0 0 ipA ipB 1234 80 6)] 0).expire_flows 30 31).flows := by
  have h := c5_expiration_sweep (FlowTracker.mk [(5, mkFlow dns0 0 ipA ipB 1234 80 6)] 0) 30 31 (by decide)
  refine ⟨h.1 5 (mkFlow dns0 0 ipA ipB 1234 80 6) rfl, ?_, ?_⟩
  · exact (h.2 5 ((mkFlow dns0 0 ipA ipB 1234 80 6).expire) (by decide) rfl).1
  · exact (h.2 5 ((mkFlow dns0 0 ipA ipB 1234 80 6).expire) (by decide) rfl).2

/-! Claim C8. -/

theorem applyOp_keys (o : Op) (s : FlowTracker) :
    ∃ rest, (applyOp o s).flow_table.map Prod.fst = s.flow_table.map Prod.fst ++ rest := by
  cases o with
  | ingest dns now p =>
    by_cases h : accepts p = true
    · cases hget : tableGet s.flow_table (pktHash p) with
      | some f =>
        refine ⟨[], ?_⟩
        show (s.account_packet dns now p).flow_table.map Prod.fst = _
        rw [account_packet_of_accepts s dns now p h,
          map_fst_tableSet_of_get _ _ _ _ hget]
        simp
      | none =>
        refine ⟨[pktHash p], ?_⟩
        show (s.account_packet dns now p).flow_table.map Prod.fst = _
        rw [account_packet_of_accepts s dns now p h,
          map_fst_tableSet_of_none _ _ _ hget]
    · refine ⟨[], ?_⟩
      have hf : accepts p = false := by
        simpa using h
      show (s.account_packet dns now p).flow_table.map Prod.fst = _
      rw [account_packet_of_not_accepts s dns now p hf]
      simp
  | sweep timeout now =>
    refine ⟨[], ?_⟩
    show (s.expire_flows timeout now).flow_table.map Prod.fst = _
    unfold FlowTracker.expire_flows
    by_cases ht : timeout = NO_EXPIRATION
    · rw [if_pos ht]
      simp
    · rw [if_neg ht]
      simp [List.map_map]

/-- C8: over any sequence of ingest and expiration-sweep operations — the
only mutation entry points other than `clear` — the table's key sequence is
only ever extended, so no flow is ever removed and the number of flows is
monotonically non-decreasing between two clears. -/
theorem c8_no_flow_removal (ops : List Op) (s : FlowTracker) :
    (∃ rest, (applyOps ops s).flow_table.map Prod.fst
      = s.flow_table.map Prod.fst ++ rest) ∧
    s.flow_table.length ≤ (applyOps ops s).flow_table.length := by
  induction ops generalizing s with
  | nil => exact ⟨⟨[], by simp [applyOps]⟩, le_rfl⟩
  | cons o rest ih =>
    obtain ⟨r1, h1⟩ := applyOp_keys o s
    obtain ⟨⟨r2, h2⟩, _⟩ := ih (applyOp o s)
    have hkeys : (applyOps (o :: rest) s).flow_table.map Prod.fst
        = s.flow_table.map Prod.fst ++ (r1 ++ r2) := by
      show (applyOps rest (applyOp o s)).flow_table.map Prod.fst = _
      rw [h2, h1, List.append_assoc]
    refine ⟨⟨r1 ++ r2, hkeys⟩, ?_⟩
    have := congrArg List.length hkeys
    simp only [List.length_map, List.length_append] at this
    omega

/-! Claim C10. -/

/-- C10: a packet matching an expired flow's key is still accounted into it:
its counters increase by one packet and the packet length, `last_activity`
moves to the current time, `expired` stays true, the flow remains excluded
from the active-only view, and the new traffic still enters the table-wide
totals. -/
theorem c10_expired_flow_still_accounts (dns : IPv4 → Option String)
    (now : Nat) (p : Packet) (s : FlowTracker) (f : Flow)
    (hacc : accepts p = true)
    (hget : tableGet s.flow_table (pktHash p) = some f)
    (hexp : f.expired = true) :
    tableGet (s.account_packet dns now p).flow_table (pktHash p)
      = some (f.account_packet p now) ∧
    (f.account_packet p now).packets_n = f.packets_n + 1 ∧
    (f.account_packet p now).bytes_n = f.bytes_n + p.pktLen ∧
    (f.account_packet p now).last_activity = now ∧
    (f.account_packet p now).expired = true ∧
    (pktHash p, f.account_packet p now) ∉ (s.account_packet dns now p).active_flows ∧
    (s.account_packet dns now p).packets_n = s.packets_n + 1 ∧
    (s.account_packet dns now p).bytes_n = s.bytes_n + p.pktLen := by
  have htab : (s.account_packet dns now p).flow_table
      = tableSet s.flow_table (pktHash p) (f.account_packet p now) := by
    rw [account_packet_of_accepts s dns now p hacc, hget]
  have hexp2 : (f.account_packet p now).expired = true := by
    simp [Flow.account_packet, hexp]
  refine ⟨?_, rfl, rfl, rfl, hexp2, ?_, ?_, ?_⟩
  · rw [htab]
    exact tableGet_tableSet_self _ _ _
  · intro hmem
    have hfil := (List.mem_filter.mp hmem).2
    rw [hexp2] at hfil
    simp at hfil
  · have hsum := sum_map_tableSet s.flow_table (pktHash p)
      (f.account_packet p now) f Flow.packets_n hget
    have hpn : (f.account_packet p now).packets_n = f.packets_n + 1 := rfl
    unfold FlowTracker.packets_n
    rw [htab]
    omega
  · have hsum := sum_map_tableSet s.flow_table (pktHash p)
      (f.account_packet p now) f Flow.bytes_n hget
    have hbn : (f.account_packet p now).bytes_n = f.bytes_n + p.pktLen := rfl
    unfold FlowTracker.bytes_n
    rw [htab]
    omega

/-- Witness for C10: an expired flow of the scenario tuple receives one more
60-byte packet at time 9; the counters advance, the flag stays set and the
totals grow. -/
theorem c10_expired_flow_still_accounts_witness :
    tableGet ((FlowTracker.mk [(pktHash pkt60, (mkFlow dns0 0 ipA ipB 1234 80 6).expire)] 0).account_packet dns0 9 pkt60).flow_table (pktHash pkt60)
      = some (((mkFlow dns0 0 ipA ipB 1234 80 6).expire).account_packet pkt60 9) ∧
    (((mkFlow dns0 0 ipA ipB 1234 80 6).expire).account_packet pkt60 9).packets_n
      = ((mkFlow dns0 0 ipA ipB 1234 80 6).expire).packets_n + 1 ∧
    (((mkFlow dns0 0 ipA ipB 1234 80 6).expire).account_packet pkt60 9).bytes_n
      = ((mkFlow dns0 0 ipA ipB 1234 80 6).expire).bytes_n + pkt60.pktLen ∧
    (((mkFlow dns0 0 ipA ipB 1234 80 6).expire).account_packet pkt60 9).last_activity = 9 ∧
    (((mkFlow dns0 0 ipA ipB 1234 80 6).expire).account_packet pkt60 9).expired = true ∧
    (pktHash pkt60, ((mkFlow dns0 0 ipA ipB 1234 80 6).expire).account_packet pkt60 9)
      ∉ ((FlowTracker.mk [(pktHash pkt60, (mkFlow dns0 0 ipA ipB 1234 80 6).expire)] 0).account_packet dns0 9 pkt60).active_flows ∧
    ((FlowTracker.mk [(pktHash pkt60, (mkFlow dns0 0 ipA ipB 1234 80 6).expire)] 0).account_packet dns0 9 pkt60).packets_n
      = (FlowTracker.mk [(pktHash pkt60, (mkFlow dns0 0 ipA ipB 1234 80 6).expire)] 0).packets_n + 1 ∧
    ((FlowTracker.mk [(pktHash pkt60, (mkFlow dns0 0 ipA ipB 1234 80 6).expire)] 0).account_packet dns0 9 pkt60).bytes_n
      = (FlowTracker.mk [(pktHash pkt60, (mkFlow dns0 0 ipA ipB 1234 80 6).expire)] 0).bytes_n + pkt60.pktLen := by
  exact c10_expired_flow_still_accounts dns0 9 pkt60
    (FlowTracker.mk [(pktHash pkt60, (mkFlow dns0 0 ipA ipB 1234 80 6).expire)] 0)
    ((mkFlow dns0 0 ipA ipB 1234 80 6).expire) rfl rfl rfl

/-! Claim C4. -/

/-- C4 counterexample: the `flows` property hands the consumer the live table
object, so a snapshot taken through it is not isolated — from the empty
tracker, taking the snapshot and then ingesting one accepted packet changes
what the snapshot holder observes. -/
theorem c4_live_snapshot_counterexample :
    readSnap ((TrackerH.mk [] [] 0).ingest dns0 1 pktAB) ((TrackerH.mk [] [] 0).flows)
      ≠ readSnap (TrackerH.mk [] [] 0) ((TrackerH.mk [] [] 0).flows) := by
  decide

/-- C4 (amended): only the active-only snapshot is a fresh collection — its
observed contents are unchanged by a subsequent ingest whose key is not yet
in the table — while the include-expired snapshot (`flows`) is the live
table reference, whose observed contents are always exactly the current
table. -/
theorem c4_snapshot_isolation (s : TrackerH) (dns : IPv4 → Option String)
    (now : Nat) (p : Packet)
    (hfresh : tableGet s.table (pktHash p) = none)
    (haddr : ∀ ka ∈ s.table, ka.2 < s.flowStore.length) :
    readSnap (s.ingest dns now p) s.active_flows = readSnap s s.active_flows ∧
    ∀ s' : TrackerH, readSnap s' (s.flows)
      = s'.table.map fun ka => (ka.1, s'.flowStore.get? ka.2) := by
  constructor
  · by_cases hacc : accepts p = true
    · unfold TrackerH.ingest
      rw [if_pos hacc, hfresh]
      show readSnap (TrackerH.mk (s.flowStore ++ [_]) (s.table ++ [_]) s.start_ts)
        s.active_flows = _
      unfold TrackerH.active_flows readSnap
      apply List.map_congr_left
      intro ka hka
      have hmem : ka ∈ s.table := (List.mem_filter.mp hka).1
      have hlt : ka.2 < s.flowStore.length := haddr ka hmem
      rw [List.get?_append hlt]
    · have hf : accepts p = false := by
        simpa using hacc
      unfold TrackerH.ingest
      rw [hf]
      simp
  · intro s'
    rfl

/-- Witness for the amended C4: a tracker holding one flow, snapshotted
through `active_flows`, observes the same contents after a packet of a fresh
tuple is ingested. -/
theorem c4_snapshot_isolation_witness :
    readSnap ((TrackerH.mk [mkFlow dns0 0 ipB ipA 9 9 17] [(3, 0)] 0).ingest dns0 9 pktAB)
        (TrackerH.mk [mkFlow dns0 0 ipB ipA 9 9 17] [(3, 0)] 0).active_flows
      = readSnap (TrackerH.mk [mkFlow dns0 0 ipB ipA 9 9 17] [(3, 0)] 0)
        (TrackerH.mk [mkFlow dns0 0 ipB ipA 9 9 17] [(3, 0)] 0).active_flows := by
  exact (c4_snapshot_isolation (TrackerH.mk [mkFlow dns0 0 ipB ipA 9 9 17] [(3, 0)] 0)
    dns0 9 pktAB (by decide) (by decide)).1

/-! Claim C7. -/

theorem foldl_add_proj (t : List (Nat × Flow)) (g : Flow → Nat) (a : Nat) :
    t.foldl (fun acc kf => acc + g kf.2) a = a + (t.map fun kf => g kf.2).sum := by
  induction t generalizing a with
  | nil => simp
  | cons kv rest ih =>
    simp only [List.foldl_cons, List.map_cons, List.sum_cons, ih]
    omega

theorem length_filter_expired_split (t : List (Nat × Flow)) :
    (t.filter fun kf => !kf.2.expired).length
      + (t.filter fun kf => kf.2.expired).length = t.length := by
  induction t with
  | nil => rfl
  | cons kv rest ih =>
    by_cases h : kv.2.expired <;> simp [List.filter, h] <;> omega

/-- C7: `stats` is the six-tuple whose totals are the packet and byte sums
over every flow in the table, whose flow count includes expired flows (it is
the active count plus the expired count), and whose rate components are the
corresponding total divided by the elapsed timeframe since the last clear,
with a zero timeframe yielding zero instead of a division error. -/
theorem c7_stats_shape (s : FlowTracker) (now : Nat) :
    s.stats now =
      ( s.flow_table.foldl (fun acc kf => acc + kf.2.packets_n) 0,
        (if s.timeframe now = 0 then 0
         else ((s.flow_table.foldl (fun acc kf => acc + kf.2.packets_n) 0 : Nat) : ℚ)
           / (↑(s.timeframe now) : ℚ)),
        s.flow_table.foldl (fun acc kf => acc + kf.2.bytes_n) 0,
        (if s.timeframe now = 0 then 0
         else ((s.flow_table.foldl (fun acc kf => acc + kf.2.bytes_n) 0 : Nat) : ℚ)
           / (↑(s.timeframe now) : ℚ)),
        s.active_flows.length + (s.flow_table.filter fun kf => kf.2.expired).length,
        (if s.timeframe now = 0 then 0
         else (↑(s.active_flows.length + (s.flow_table.filter fun kf => kf.2.expired).length) : ℚ)
           / (↑(s.timeframe now) : ℚ)) ) := by
  have hpack : s.packets_n = s.flow_table.foldl (fun acc kf => acc + kf.2.packets_n) 0 := by
    rw [foldl_add_proj s.flow_table Flow.packets_n 0]
    simp [FlowTracker.packets_n]
  have hbyte : s.bytes_n = s.flow_table.foldl (fun acc kf => acc + kf.2.bytes_n) 0 := by
    rw [foldl_add_proj s.flow_table Flow.bytes_n 0]
    simp [FlowTracker.bytes_n]
  have hcount : s.flows_n
      = s.active_flows.length + (s.flow_table.filter fun kf => kf.2.expired).length := by
    unfold FlowTracker.flows_n FlowTracker.active_flows
    rw [length_filter_expired_split]
  have havg : ∀ total : Nat, (↑total : ℚ) / (↑(s.timeframe now) : ℚ)
      = if s.timeframe now = 0 then 0 else (↑total : ℚ) / (↑(s.timeframe now) : ℚ) := by
    intro total
    by_cases h : s.timeframe now = 0
    · rw [if_pos h, h]
      simp
    · rw [if_neg h]
  unfold FlowTracker.stats FlowTracker.avg_packets_per_s FlowTracker.avg_bytes_per_s
    FlowTracker.avg_flows_per_s
  rw [hpack, hbyte, hcount]
  simp only [Prod.mk.injEq]
  exact ⟨trivial, havg _, trivial, havg _, trivial, havg _⟩

end Flowtop
